import Mathlib

/-!
A shallow embedding of the `books` library storage engine (`library.go`):
the transactional import pipeline (duplicate check, row insert, full-text
index insert, physical file placement), the search/retrieval path
(`Search`, `GetBooksById`), the file placement helpers (`moveFile`,
`copyFile`, `GetUniqueName`) and the conversion adapter (`ConvertToEpub`).

Strings are modelled at the character level where the Go code does
character-level work (`strings.Join`/`strings.Split` with the `/` tag
delimiter, `path.Ext`, `path.Clean`, `path.Join`, `path.Dir`,
`strings.TrimSuffix`).  The SQLite database is modelled as the list of
book rows in rowid (insertion) order together with the list of full-text
index rows; a `select ... where id in (...)` query yields the matching
rows in table order, which is how SQLite returns them for an integer
primary key.  The filesystem is a finite map from paths to file data plus
a set of created directories; OS failures the code branches on
(`os.Rename` failing, `os.Remove` failing) are environment oracles.
-/

namespace Books

/-! ### Go string helpers: `strings.Join` and `strings.Split` with a one-character separator -/

/-- Character-level model of Go `strings.Join(elems, sep)` for a
one-character separator: interleave `sep` between the elements. -/
def goJoin (sep : Char) : List (List Char) → List Char
  | [] => []
  | [x] => x
  | x :: rest => x ++ sep :: goJoin sep rest

/-- Character-level model of Go `strings.Split(s, sep)` for a one-character
separator: split around each occurrence of `sep`.  As in Go,
`goSplit sep [] = [[]]` (splitting the empty string yields one empty part). -/
def goSplit (sep : Char) : List Char → List (List Char)
  | [] => [[]]
  | c :: rest =>
    if c = sep then [] :: goSplit sep rest
    else
      match goSplit sep rest with
      | [] => [[c]]
      | t :: ts => (c :: t) :: ts

/-- The tag serialization used by `ImportBook`: `strings.Join(book.Tags, "/")`. -/
def goJoinTags (tags : List String) : String := ⟨goJoin '/' (tags.map String.data)⟩

/-- The tag deserialization used by `GetBooksById`: `strings.Split(tags, "/")`. -/
def goSplitTags (s : String) : List String := (goSplit '/' s.data).map String.mk

/-! ### Go path helpers: `path.Ext`, `strings.TrimSuffix`, `path.Clean`, `path.Join`, `path.Dir` -/

/-- Scan of Go `path.Ext` from the end of the path: the suffix starting at
the final dot in the final slash-separated element; empty if there is no
dot.  The first argument is the reversed path, the accumulator collects the
characters seen so far in forward order. -/
def goExtAux : List Char → List Char → List Char
  | [], _ => []
  | c :: rest, acc =>
    if c = '/' then []
    else if c = '.' then c :: acc
    else goExtAux rest (c :: acc)

/-- Model of Go `path.Ext`. -/
def goExt (f : String) : String := ⟨goExtAux f.data.reverse []⟩

/-- Model of Go `strings.TrimSuffix(s, suffix)`: remove `suffix` from the end
of `s` when it is a suffix, otherwise return `s` unchanged. -/
def goTrimSuffix (s suffix : String) : String :=
  if suffix.data.isSuffixOf s.data then ⟨s.data.take (s.data.length - suffix.data.length)⟩
  else s

/-- Segment processing of Go `path.Clean`: drop empty and `.` segments, let
`..` cancel the preceding segment (kept literally at the front of a relative
path, dropped at the root of a rooted path).  The first list is the stack of
output segments in reverse order. -/
def cleanStack (rooted : Bool) : List (List Char) → List (List Char) → List (List Char)
  | stack, [] => stack.reverse
  | stack, seg :: rest =>
    if seg = [] ∨ seg = ['.'] then cleanStack rooted stack rest
    else if seg = ['.', '.'] then
      match stack with
      | [] => if rooted then cleanStack rooted [] rest else cleanStack rooted [seg] rest
      | top :: stk =>
        if top = ['.', '.'] then cleanStack rooted (seg :: top :: stk) rest
        else cleanStack rooted stk rest
    else cleanStack rooted (seg :: stack) rest

/-- Model of Go `path.Clean`: empty path cleans to `.`, multiple slashes
collapse, `.` and resolvable `..` segments are eliminated, rootedness is
preserved. -/
def goClean (p : String) : String :=
  if p.data = [] then "."
  else
    let rooted := p.data.head? == some '/'
    let body := goJoin '/' (cleanStack rooted [] (goSplit '/' p.data))
    if rooted then ⟨'/' :: body⟩
    else if body = [] then "." else ⟨body⟩

/-- Model of Go `path.Join(a, b)`: drop leading empty elements, join with a
slash, and clean the result; all-empty input yields the empty string. -/
def goPathJoin (a b : String) : String :=
  if a = "" ∧ b = "" then ""
  else if a = "" then goClean b
  else goClean (a ++ "/" ++ b)

/-- Everything up to and including the final slash of a path (Go
`path.Split`'s directory part); empty when the path has no slash. -/
def dirPart (s : List Char) : List Char := (s.reverse.dropWhile (fun c => c != '/')).reverse

/-- Model of Go `path.Dir`: the cleaned directory part of the path. -/
def goPathDir (p : String) : String := goClean ⟨dirPart p.data⟩

/-! ### Filesystem model -/

/-- The observable data of one file: its byte content (abstracted as a
string) and its modification time. -/
structure FileData where
  content : String
  mtime : Int
deriving DecidableEq, Repr

/-- Lookup in an association list of files by path. -/
def lookupFile : List (String × FileData) → String → Option FileData
  | [], _ => none
  | e :: rest, p => if e.1 = p then some e.2 else lookupFile rest p

/-- Write a file at a path, replacing any previous file there. -/
def setFile (files : List (String × FileData)) (p : String) (d : FileData) :
    List (String × FileData) :=
  (p, d) :: files.filter (fun e => e.1 != p)

/-- Delete the file at a path. -/
def delFile (files : List (String × FileData)) (p : String) : List (String × FileData) :=
  files.filter (fun e => e.1 != p)

/-- The filesystem: files by path, plus the set of directories created so
far (tracked so that `os.MkdirAll` side effects are observable). -/
structure FS where
  files : List (String × FileData)
  dirs : List String
deriving DecidableEq, Repr

/-- Lookup a path on the filesystem (`os.Stat` and `os.Open` succeed exactly
when this is `some`). -/
def FS.lookup (fs : FS) (p : String) : Option FileData := lookupFile fs.files p

/-- Model of `os.MkdirAll`: record the directory as created. -/
def mkdirAll (fs : FS) (d : String) : FS :=
  if fs.dirs.contains d then fs else { fs with dirs := fs.dirs ++ [d] }

/-- Filesystem-level failures surfaced by the placement helpers. -/
inductive FsErr where
  | openFailed (path : String)
deriving DecidableEq, Repr

/-- Environment oracle for OS failures the code branches on: whether
`os.Rename` fails (for example across volumes) and whether `os.Remove`
fails after a fallback copy. -/
structure Env where
  renameFails : Bool
  removeFails : Bool
deriving DecidableEq, Repr

/-- Model of `copyFile(src, dst)` from `library.go`: open the source (fails
when it does not exist), stream the bytes to a freshly created destination,
then — in the deferred block — set the destination's modification time to the
source's `ModTime` captured by `Stat` before the copy. -/
def copyFile (fs : FS) (src dst : String) : Option FsErr × FS :=
  match fs.lookup src with
  | none => (some (FsErr.openFailed src), fs)
  | some d =>
    (none, { fs with files := setFile fs.files dst { content := d.content, mtime := d.mtime } })

/-- Model of `moveFile(src, dst)` from `library.go`: try `os.Rename`; if it
fails, fall back to `copyFile` followed by `os.Remove` of the source, and if
that remove fails the error is only logged and `nil` is returned. -/
def moveFile (env : Env) (fs : FS) (src dst : String) : Option FsErr × FS :=
  match fs.lookup src with
  | some d =>
    if env.renameFails then
      match copyFile fs src dst with
      | (some e, fs1) => (some e, fs1)
      | (none, fs1) =>
        if env.removeFails then (none, fs1)
        else (none, { fs1 with files := delFile fs1.files src })
    else (none, { fs with files := setFile (delFile fs.files src) dst d })
  | none => (some (FsErr.openFailed src), fs)

/-! ### Catalog data model -/

/-- The in-memory `Book` record (fields as used by `library.go`; Go zero
values as defaults). -/
structure Book where
  Id : Int := 0
  Author : String := ""
  Series : String := ""
  Title : String := ""
  Extension : String := ""
  Tags : List String := []
  OriginalFilename : String := ""
  CurrentFilename : String := ""
  FileSize : Int := 0
  FileMtime : Int := 0
  Hash : String := ""
  RegexpName : String := ""
  Source : String := ""
deriving DecidableEq, Repr

/-- One row of the `books` table (the columns `ImportBook` inserts). -/
structure BookRow where
  id : Int
  author : String
  series : String
  title : String
  extension : String
  tags : String
  original_filename : String
  filename : String
  file_size : Int
  file_mtime : Int
  hash : String
  regexp_name : String
  source : String
deriving DecidableEq, Repr

/-- One row of the `books_fts` full-text shadow index. -/
structure FtsRow where
  docid : Int
  author : String
  series : String
  title : String
  extension : String
  tags : String
  filename : String
  source : String
deriving DecidableEq, Repr

/-- The database: book rows in rowid (insertion) order, full-text index
rows, and the next rowid SQLite will assign. -/
structure DB where
  books : List BookRow
  fts : List FtsRow
  nextId : Int
deriving DecidableEq, Repr

/-- The `Library` state: the database plus the filesystem, the database
file's path and the configured books root. -/
structure LibState where
  db : DB
  fs : FS
  filename : String
  booksRoot : String
deriving DecidableEq, Repr

/-- Errors returned by `ImportBook`. -/
inductive ImportErr where
  | duplicateBook (id : Int)
  | placement (e : FsErr)
deriving DecidableEq, Repr

/-! ### Catalog operations -/

/-- The duplicate check of `ImportBook`:
`select id from books where hash=?`, reading the first returned row's id. -/
def findDuplicate (db : DB) (hash : String) : Option Int :=
  (db.books.find? (fun r => r.hash == hash)).map (fun r => r.id)

/-- Model of `moveOrCopyFile`: compute the destination under the books root,
`os.MkdirAll` its directory, then move or copy the source file there. -/
def moveOrCopyFile (env : Env) (booksRoot : String) (fs : FS) (book : Book) (move : Bool) :
    Option FsErr × FS :=
  let newPath := goPathJoin booksRoot book.CurrentFilename
  let fs1 := mkdirAll fs (goPathDir newPath)
  if move then moveFile env fs1 book.OriginalFilename newPath
  else copyFile fs1 book.OriginalFilename newPath

/-- The `books` row `ImportBook` inserts: the book's fields with the tags
list joined on `/` and the rowid SQLite assigns. -/
def importRow (db : DB) (book : Book) : BookRow :=
  { id := db.nextId, author := book.Author, series := book.Series, title := book.Title,
    extension := book.Extension, tags := goJoinTags book.Tags,
    original_filename := book.OriginalFilename, filename := book.CurrentFilename,
    file_size := book.FileSize, file_mtime := book.FileMtime, hash := book.Hash,
    regexp_name := book.RegexpName, source := book.Source }

/-- The `books_fts` row `ImportBook` inserts, keyed by the new rowid. -/
def importFtsRow (db : DB) (book : Book) : FtsRow :=
  { docid := db.nextId, author := book.Author, series := book.Series, title := book.Title,
    extension := book.Extension, tags := goJoinTags book.Tags,
    filename := book.CurrentFilename, source := book.Source }

/-- Model of `ImportBook(book, move)`: inside one transaction, check for an
existing row with the same hash (abort with the duplicate's id), insert the
book row and its full-text index row, then perform the physical placement;
a placement failure rolls the transaction back, so the database is
unchanged while the filesystem keeps whatever the placement attempt did
(directory creation) before failing. -/
def ImportBook (env : Env) (st : LibState) (book : Book) (move : Bool) :
    Except ImportErr Unit × LibState :=
  match findDuplicate st.db book.Hash with
  | some id => (Except.error (ImportErr.duplicateBook id), st)
  | none =>
    let db1 : DB :=
      { books := st.db.books ++ [importRow st.db book],
        fts := st.db.fts ++ [importFtsRow st.db book],
        nextId := st.db.nextId + 1 }
    match moveOrCopyFile env st.booksRoot st.fs book move with
    | (some e, fs1) => (Except.error (ImportErr.placement e), { st with fs := fs1 })
    | (none, fs1) => (Except.ok (), { st with db := db1, fs := fs1 })

/-- The row-to-record conversion of `GetBooksById`: the scanned columns
`id, hash, author, series, tags, title, extension, filename`, with the tags
column split on `/`; the remaining fields keep their Go zero values. -/
def rowToBook (r : BookRow) : Book :=
  { Id := r.id, Hash := r.hash, Author := r.author, Series := r.series,
    Tags := goSplitTags r.tags, Title := r.title, Extension := r.extension,
    CurrentFilename := r.filename }

/-- Model of `GetBooksById(ids)`: an empty id list returns `nil` at once;
otherwise `select ... where id in (...)` yields the matching rows in table
order, each scanned into a `Book`. -/
def GetBooksById (db : DB) (ids : List Int) : List Book :=
  if ids = [] then []
  else (db.books.filter (fun r => ids.contains r.id)).map rowToBook

/-- Model of `Search(terms)`: the full-text engine (an oracle over the index
rows) yields the matching docids in engine order; the ids are collected and
resolved through one `GetBooksById` call. -/
def Search (engine : List FtsRow → String → List Int) (db : DB) (terms : String) :
    List Book :=
  GetBooksById db (engine db.fts terms)

/-! ### Unique-name probing -/

/-- The candidate name `GetUniqueName` builds on probe `i`:
`strings.TrimSuffix(f, ext) + " (" + strconv.Itoa(i) + ")" + ext`
with `ext = path.Ext(f)`. -/
def uniqueCandidate (f : String) (i : Nat) : String :=
  goTrimSuffix f (goExt f) ++ " (" ++ Nat.repr i ++ ")" ++ goExt f

/-- The probe loop of `GetUniqueName`, fuelled: try candidate `i`, `i+1`, …
until one is not taken.  `none` means the fuel ran out (the Go loop would
still be probing). -/
def getUniqueNameLoop (taken : String → Bool) (f : String) : Nat → Nat → Option String
  | _, 0 => none
  | i, fuel + 1 =>
    if taken (uniqueCandidate f i) then getUniqueNameLoop taken f (i + 1) fuel
    else some (uniqueCandidate f i)

/-- Model of `GetUniqueName(f)`: if no file named `f` exists (`os.Stat`
fails) return `f`; otherwise probe `f (1)`, `f (2)`, … before the extension
until an unused name is found.  `taken` is the filesystem oracle
(`os.Stat` succeeds), `fuel` bounds the loop. -/
def GetUniqueName (taken : String → Bool) (fuel : Nat) (f : String) : Option String :=
  if taken f then getUniqueNameLoop taken f 1 fuel else some f

/-! ### Conversion adapter -/

/-- Failure of the external converter subprocess: it could not be spawned,
or it exited non-zero. -/
inductive CmdErr where
  | spawnFailed
  | exitCode (code : Nat)
deriving DecidableEq, Repr

/-- An external command invocation: executable plus positional arguments. -/
structure Cmd where
  exe : String
  args : List String
deriving DecidableEq, Repr

/-- The command `ConvertToEpub` builds: `ebook-convert` with the book's
current file resolved under the books root as first argument, and
`<dir of the library file>/cache/<hash>.epub` as second argument. -/
def convertCmd (libFilename booksRoot : String) (book : Book) : Cmd :=
  let filename := goPathJoin booksRoot book.CurrentFilename
  let cacheDir := goPathJoin (goPathDir libFilename) "cache"
  let newFile := goPathJoin cacheDir (book.Hash ++ ".epub")
  { exe := "ebook-convert", args := [filename, newFile] }

/-- Model of `ConvertToEpub(book)`: run the converter command (`run` is the
oracle for `cmd.Run()`); any failure is returned as-is, success returns
`none` — the function's only result is its error value. -/
def ConvertToEpub (run : Cmd → Option CmdErr) (libFilename booksRoot : String) (book : Book) :
    Option CmdErr :=
  match run (convertCmd libFilename booksRoot book) with
  | some e => some e
  | none => none

/-! ### Concrete example inputs used by witnesses and counterexamples -/

/-- An environment in which every OS call succeeds. -/
def envNoFail : Env := { renameFails := false, removeFails := false }

/-- An environment in which `os.Rename` and `os.Remove` both fail. -/
def envRenameRemoveFail : Env := { renameFails := true, removeFails := true }

/-- A committed catalog row with hash `h1`. -/
def dupRow : BookRow :=
  { id := 7, author := "A", series := "", title := "Dune", extension := "epub", tags := "",
    original_filename := "o.epub", filename := "f.epub", file_size := 10, file_mtime := 0,
    hash := "h1", regexp_name := "std", source := "" }

/-- A library state whose catalog already holds `dupRow`. -/
def dupSt : LibState :=
  { db := { books := [dupRow], fts := [], nextId := 8 },
    fs := { files := [("in.epub", { content := "bytes", mtime := 3 })], dirs := [] },
    filename := "books.db", booksRoot := "root" }

/-- A fresh book whose content hash collides with `dupRow`. -/
def dupBook : Book :=
  { Author := "B", Title := "Dune (dup)", Extension := "epub", Hash := "h1",
    OriginalFilename := "in.epub", CurrentFilename := "B/dune.epub" }

/-- A library state with an empty catalog and an empty filesystem. -/
def missSt : LibState :=
  { db := { books := [], fts := [], nextId := 1 },
    fs := { files := [], dirs := [] },
    filename := "books.db", booksRoot := "root" }

/-- A book whose source file does not exist, so its placement fails. -/
def missBook : Book :=
  { Author := "A", Title := "T", Extension := "epub", Hash := "h2",
    OriginalFilename := "missing.epub", CurrentFilename := "A/t.epub" }

/-- A catalog with two committed rows (ids 1 and 2) and their index rows. -/
def twoRowDb : DB :=
  { books :=
      [{ id := 1, author := "A", series := "", title := "T1", extension := "epub", tags := "",
         original_filename := "", filename := "f1", file_size := 0, file_mtime := 0,
         hash := "h1", regexp_name := "", source := "" },
       { id := 2, author := "B", series := "", title := "T2", extension := "epub", tags := "",
         original_filename := "", filename := "f2", file_size := 0, file_mtime := 0,
         hash := "h2", regexp_name := "", source := "" }],
    fts :=
      [{ docid := 1, author := "A", series := "", title := "T1", extension := "epub",
         tags := "", filename := "f1", source := "" },
       { docid := 2, author := "B", series := "", title := "T2", extension := "epub",
         tags := "", filename := "f2", source := "" }],
    nextId := 3 }

/-- A full-text engine that yields all indexed docids, most recent first —
a legitimate engine-defined relevance order. -/
def revEngine (rows : List FtsRow) (_terms : String) : List Int :=
  (rows.map (fun r => r.docid)).reverse

/-- A filesystem holding one source file. -/
def fsWithSrc : FS :=
  { files := [("src.epub", { content := "bytes", mtime := 42 })], dirs := [] }

/-- A book used by the conversion counterexample. -/
def cexBook1 : Book := { Hash := "h1", CurrentFilename := "a.mobi" }

/-- A second book, with a different content hash, for the conversion
counterexample. -/
def cexBook2 : Book := { Hash := "h2", CurrentFilename := "b.mobi" }

/-- A library state holding just the source file for an import. -/
def emptyTagsSt : LibState :=
  { db := { books := [], fts := [], nextId := 1 },
    fs := { files := [("in.epub", { content := "bytes", mtime := 3 })], dirs := [] },
    filename := "books.db", booksRoot := "root" }

/-- A book imported with no tags at all. -/
def emptyTagsBook : Book :=
  { Author := "A", Title := "T", Extension := "epub", Hash := "h9",
    OriginalFilename := "in.epub", CurrentFilename := "A/t.epub", Tags := [] }

/-! ### Helper lemmas -/

/-- Splitting never yields the empty list of parts (Go `strings.Split` with a
non-empty separator always returns at least one part). -/
theorem goSplit_ne_nil (sep : Char) (s : List Char) : goSplit sep s ≠ [] := by
  cases s with
  | nil => simp [goSplit]
  | cons c rest =>
    simp only [goSplit]
    split
    · simp
    · split <;> simp

/-- Splitting a separator-free string yields that string as the one part. -/
theorem goSplit_sepFree (sep : Char) (a : List Char) (h : ∀ c ∈ a, c ≠ sep) :
    goSplit sep a = [a] := by
  induction a with
  | nil => rfl
  | cons c rest ih =>
    have hc : c ≠ sep := h c (List.mem_cons_self c rest)
    have hrest : ∀ x ∈ rest, x ≠ sep := fun x hx => h x (List.mem_cons_of_mem c hx)
    simp only [goSplit, if_neg hc, ih hrest]

/-- Splitting peels off one separator-free part before a separator. -/
theorem goSplit_append_sep (sep : Char) (a s : List Char) (h : ∀ c ∈ a, c ≠ sep) :
    goSplit sep (a ++ sep :: s) = a :: goSplit sep s := by
  induction a with
  | nil => simp [goSplit]
  | cons c rest ih =>
    have hc : c ≠ sep := h c (List.mem_cons_self c rest)
    have hrest : ∀ x ∈ rest, x ≠ sep := fun x hx => h x (List.mem_cons_of_mem c hx)
    simp only [List.cons_append, goSplit, if_neg hc, List.append_eq, ih hrest]

/-- Character-level round trip: splitting a join of a non-empty list of
separator-free parts recovers the parts. -/
theorem goSplit_goJoin (sep : Char) (T : List (List Char)) (hne : T ≠ [])
    (h : ∀ a ∈ T, ∀ c ∈ a, c ≠ sep) :
    goSplit sep (goJoin sep T) = T := by
  induction T with
  | nil => exact absurd rfl hne
  | cons x rest ih =>
    cases rest with
    | nil => exact goSplit_sepFree sep x (h x (List.mem_cons_self x []))
    | cons y rs =>
      have hx : ∀ c ∈ x, c ≠ sep := h x (List.mem_cons_self x (y :: rs))
      have hrest : ∀ a ∈ y :: rs, ∀ c ∈ a, c ≠ sep :=
        fun a ha => h a (List.mem_cons_of_mem x ha)
      show goSplit sep (x ++ sep :: goJoin sep (y :: rs)) = x :: y :: rs
      rw [goSplit_append_sep sep x _ hx, ih (by simp) hrest]

/-- Rebuilding strings from their character lists is the identity. -/
theorem map_mk_map_data (T : List String) : (T.map String.data).map String.mk = T := by
  induction T with
  | nil => rfl
  | cons t ts ih =>
    show String.mk t.data :: (ts.map String.data).map String.mk = t :: ts
    rw [ih]

/-- Deleting a file leaves lookups of other paths unchanged. -/
theorem lookupFile_delFile_ne (files : List (String × FileData)) (p q : String) (h : q ≠ p) :
    lookupFile (delFile files p) q = lookupFile files q := by
  induction files with
  | nil => rfl
  | cons e rest ih =>
    rcases e with ⟨k, v⟩
    by_cases he : k = p
    · subst he
      have h1 : delFile ((k, v) :: rest) k = delFile rest k := by
        simp [delFile, List.filter_cons]
      have h2 : ¬ (k = q) := fun hk => h hk.symm
      rw [h1, ih]
      simp [lookupFile, h2]
    · have h1 : delFile ((k, v) :: rest) p = (k, v) :: delFile rest p := by
        simp [delFile, List.filter_cons, he]
      rw [h1]
      show (if k = q then some v else lookupFile (delFile rest p) q)
        = if k = q then some v else lookupFile rest q
      rw [ih]

/-- Looking up after a write: the written path sees the new data, other
paths are unchanged. -/
theorem lookupFile_setFile (files : List (String × FileData)) (p q : String) (d : FileData) :
    lookupFile (setFile files p d) q = if p = q then some d else lookupFile files q := by
  show (if p = q then some d else lookupFile (delFile files p) q)
    = if p = q then some d else lookupFile files q
  split
  · rfl
  · next h => exact lookupFile_delFile_ne files p q (fun hq => h hq.symm)

/-- Inversion of a successful `ImportBook`: the resulting database appends
exactly the new book row and its full-text index row and bumps the next
rowid. -/
theorem ImportBook_ok_state (env : Env) (st : LibState) (b : Book) (mv : Bool) (st' : LibState)
    (himp : ImportBook env st b mv = (Except.ok (), st')) :
    st'.db = { books := st.db.books ++ [importRow st.db b],
               fts := st.db.fts ++ [importFtsRow st.db b],
               nextId := st.db.nextId + 1 } := by
  unfold ImportBook at himp
  split at himp
  · exact absurd (congrArg Prod.fst himp) (by simp)
  · split at himp
    · exact absurd (congrArg Prod.fst himp) (by simp)
    · have hst : st' = { st with
        db := { books := st.db.books ++ [importRow st.db b],
                fts := st.db.fts ++ [importFtsRow st.db b],
                nextId := st.db.nextId + 1 },
        fs := _ } := (congrArg Prod.snd himp).symm
      rw [hst]

/-! ### Claim theorems -/

/-- C3 counterexample: the empty tag list does not round-trip through the
serialization used by `ImportBook`/`GetBooksById`.  `strings.Join([], "/")`
is the empty string, and `strings.Split("", "/")` is `[""]`, a one-element
list — not the empty list the claim requires. -/
theorem tags_roundtrip_empty_cex :
    goJoinTags [] = "" ∧
    goSplitTags (goJoinTags []) = [""] ∧
    goSplitTags (goJoinTags ([] : List String)) ≠ ([] : List String) := by
  refine ⟨by decide, by decide, by decide⟩

/-- C3 (amended): for every non-empty tag list `T` in which no element
contains the delimiter `/`, deserializing the serialized form recovers `T`
exactly: `strings.Split(strings.Join(T, "/"), "/") == T`.  The empty list
is excluded: it serializes to `""` which deserializes to `[""]`. -/
theorem tags_roundtrip (T : List String) (hne : T ≠ [])
    (h : ∀ t ∈ T, ('/' : Char) ∉ t.data) :
    goSplitTags (goJoinTags T) = T := by
  unfold goSplitTags goJoinTags
  have hdata : (⟨goJoin '/' (T.map String.data)⟩ : String).data
      = goJoin '/' (T.map String.data) := rfl
  have hfree : ∀ a ∈ T.map String.data, ∀ c ∈ a, c ≠ '/' := by
    intro a ha c hc
    obtain ⟨t, ht, rfl⟩ := List.mem_map.mp ha
    intro hcs
    exact h t ht (hcs ▸ hc)
  have hmapne : T.map String.data ≠ [] := by
    cases T with
    | nil => exact absurd rfl hne
    | cons t ts => simp
  rw [hdata, goSplit_goJoin '/' (T.map String.data) hmapne hfree, map_mk_map_data]

/-- Witness for C3: a concrete two-element tag list round-trips. -/
theorem tags_roundtrip_witness :
    (["fantasy", "scifi"] : List String) ≠ [] ∧
    goSplitTags (goJoinTags ["fantasy", "scifi"]) = ["fantasy", "scifi"] :=
  ⟨by decide, tags_roundtrip ["fantasy", "scifi"] (by decide) (by decide)⟩

/-- C5: `GetBooksById` returns, without an error case, exactly the catalog
records whose ids are both requested and present in the catalog; ids not
present are silently omitted, and the empty input list yields the empty
result sequence. -/
theorem GetBooksById_exact (db : DB) (ids : List Int) :
    GetBooksById db [] = [] ∧
    ∀ bk, bk ∈ GetBooksById db ids ↔
      ∃ r, r ∈ db.books ∧ r.id ∈ ids ∧ bk = rowToBook r := by
  refine ⟨rfl, fun bk => ?_⟩
  unfold GetBooksById
  split
  · next hids =>
    subst hids
    simp
  · simp only [List.mem_map, List.mem_filter]
    constructor
    · rintro ⟨r, ⟨hr, hc⟩, rfl⟩
      exact ⟨r, hr, List.elem_iff.mp hc, rfl⟩
    · rintro ⟨r, hr, hid, rfl⟩
      exact ⟨r, ⟨hr, List.elem_iff.mpr hid⟩, rfl⟩

/-- C4 counterexample: with books 1 and 2 committed and the engine yielding
docids in the order `[2, 1]`, `Search` returns the books with ids `[1, 2]` —
catalog table order, not the order in which the index pass yielded the ids. -/
theorem Search_order_cex :
    revEngine twoRowDb.fts "q" = [2, 1] ∧
    (Search revEngine twoRowDb "q").map (fun b => b.Id) = [1, 2] ∧
    (Search revEngine twoRowDb "q").map (fun b => b.Id) ≠ revEngine twoRowDb.fts "q" := by
  refine ⟨by decide, by decide, by decide⟩

/-- C4 (amended): the resolution of ids to full records does not preserve
the index engine's order; `Search` returns the matching books in catalog
table order (the stored order of the `books` table), whatever sequence of
ids the index pass yielded. -/
theorem Search_table_order (engine : List FtsRow → String → List Int) (db : DB)
    (terms : String) :
    (Search engine db terms).map (fun b => b.Id) =
      (db.books.filter (fun r => (engine db.fts terms).contains r.id)).map
        (fun r => r.id) := by
  unfold Search GetBooksById
  split
  · next hids =>
    rw [hids]
    simp
  · rw [List.map_map]
    rfl

/-- C10: a book imported with an empty tag list is stored with the empty
string in the tags column, and `GetBooksById` returns it with `Tags` equal
to `[""]` — a one-element list holding the empty string, never the empty
list; moreover every book `GetBooksById` returns has a tag list of length
at least one. -/
theorem import_empty_tags (env : Env) (st : LibState) (b : Book) (mv : Bool) (st' : LibState)
    (ht : b.Tags = [])
    (himp : ImportBook env st b mv = (Except.ok (), st'))
    (hfresh : ∀ r ∈ st.db.books, r.id ≠ st.db.nextId) :
    (importRow st.db b).tags = "" ∧
    GetBooksById st'.db [st.db.nextId] = [rowToBook (importRow st.db b)] ∧
    (rowToBook (importRow st.db b)).Tags = [""] ∧
    ∀ (db : DB) (ids : List Int) (bk : Book), bk ∈ GetBooksById db ids →
      1 ≤ bk.Tags.length := by
  have htags : (importRow st.db b).tags = "" := by
    show goJoinTags b.Tags = ""
    rw [ht]
    decide
  have hdb := ImportBook_ok_state env st b mv st' himp
  refine ⟨htags, ?_, ?_, ?_⟩
  · rw [hdb]
    unfold GetBooksById
    rw [if_neg (by simp)]
    show ((st.db.books ++ [importRow st.db b]).filter
      (fun r => [st.db.nextId].contains r.id)).map rowToBook = _
    rw [List.filter_append]
    have hold : st.db.books.filter (fun r => [st.db.nextId].contains r.id) = [] := by
      rw [List.filter_eq_nil_iff]
      intro r hr
      simp [List.contains, List.elem_cons, hfresh r hr]
    have hnew : ([importRow st.db b]).filter (fun r => [st.db.nextId].contains r.id)
        = [importRow st.db b] := by
      simp [List.filter_cons, importRow, List.contains, List.elem_cons]
    rw [hold, hnew, List.nil_append, List.map_cons, List.map_nil]
  · show goSplitTags (importRow st.db b).tags = [""]
    rw [htags]
    decide
  · intro db ids bk hbk
    unfold GetBooksById at hbk
    split at hbk
    · exact absurd hbk (List.not_mem_nil bk)
    · obtain ⟨r, _, rfl⟩ := List.mem_map.mp hbk
      show 1 ≤ ((goSplit '/' r.tags.data).map String.mk).length
      rw [List.length_map]
      exact List.length_pos.mpr (goSplit_ne_nil '/' r.tags.data)

/-- Witness for C10: importing a concrete book with no tags into an empty
catalog stores an empty tags column and yields `Tags = [""]` on lookup. -/
theorem import_empty_tags_witness :
    (importRow emptyTagsSt.db emptyTagsBook).tags = "" ∧
    GetBooksById (ImportBook envNoFail emptyTagsSt emptyTagsBook false).2.db
      [emptyTagsSt.db.nextId] = [rowToBook (importRow emptyTagsSt.db emptyTagsBook)] ∧
    (rowToBook (importRow emptyTagsSt.db emptyTagsBook)).Tags = [""] ∧
    ∀ (db : DB) (ids : List Int) (bk : Book), bk ∈ GetBooksById db ids →
      1 ≤ bk.Tags.length :=
  import_empty_tags envNoFail emptyTagsSt emptyTagsBook false _
    rfl rfl (by intro r hr; exact absurd hr (List.not_mem_nil r))

/-- C1: importing a book whose content hash already exists in the catalog
fails with the duplicate error carrying an existing record's id and leaves
the whole library state unchanged — no book row, no index row, and no
filesystem operation (no directory creation, move or copy). -/
theorem ImportBook_duplicate_rejected (env : Env) (st : LibState) (b : Book) (mv : Bool)
    (r : BookRow) (hmem : r ∈ st.db.books) (hhash : r.hash = b.Hash) :
    ∃ i, (∃ r2 ∈ st.db.books, r2.id = i ∧ r2.hash = b.Hash) ∧
      ImportBook env st b mv = (Except.error (ImportErr.duplicateBook i), st) := by
  have hsome : (st.db.books.find? (fun r2 => r2.hash == b.Hash)).isSome := by
    rw [List.find?_isSome]
    exact ⟨r, hmem, by simp [hhash]⟩
  obtain ⟨r2, hfind⟩ := Option.isSome_iff_exists.mp hsome
  have hr2hash : r2.hash = b.Hash := by
    have := List.find?_some hfind
    simpa using this
  have hr2mem : r2 ∈ st.db.books := List.mem_of_find?_eq_some hfind
  refine ⟨r2.id, ⟨r2, hr2mem, rfl, hr2hash⟩, ?_⟩
  unfold ImportBook
  have hdup : findDuplicate st.db b.Hash = some r2.id := by
    unfold findDuplicate
    rw [hfind]
    rfl
  rw [hdup]

/-- Witness for C1: re-importing a book whose hash `h1` is already committed
fails with the existing id and changes nothing. -/
theorem ImportBook_duplicate_witness :
    ∃ i, (∃ r2 ∈ dupSt.db.books, r2.id = i ∧ r2.hash = dupBook.Hash) ∧
      ImportBook envNoFail dupSt dupBook true =
        (Except.error (ImportErr.duplicateBook i), dupSt) :=
  ImportBook_duplicate_rejected envNoFail dupSt dupBook true dupRow
    (by simp [dupSt]) rfl

/-- C2: if the physical file placement step of `ImportBook` fails, the whole
transaction is rolled back — `ImportBook` returns an error, the database is
unchanged, and no book row or full-text index row for the attempt is
visible to any subsequent `Search` or `GetBooksById` call. -/
theorem ImportBook_placement_rollback (env : Env) (st : LibState) (b : Book) (mv : Bool)
    (e : FsErr)
    (hdup : findDuplicate st.db b.Hash = none)
    (hplace : (moveOrCopyFile env st.booksRoot st.fs b mv).1 = some e) :
    (ImportBook env st b mv).1 = Except.error (ImportErr.placement e) ∧
    (ImportBook env st b mv).2.db = st.db ∧
    (∀ ids, GetBooksById (ImportBook env st b mv).2.db ids = GetBooksById st.db ids) ∧
    (∀ engine terms,
      Search engine (ImportBook env st b mv).2.db terms = Search engine st.db terms) := by
  have hred : ImportBook env st b mv =
      (Except.error (ImportErr.placement e),
        { st with fs := (moveOrCopyFile env st.booksRoot st.fs b mv).2 }) := by
    unfold ImportBook
    rw [hdup]
    cases hmc : moveOrCopyFile env st.booksRoot st.fs b mv with
    | mk o fs1 =>
      rw [hmc] at hplace
      cases o with
      | none => exact absurd hplace (by simp)
      | some e2 =>
        have he2 : e2 = e := by simpa using hplace
        subst he2
        rfl
  refine ⟨?_, ?_, ?_, ?_⟩
  · rw [hred]
  · rw [hred]
  · intro ids
    rw [hred]
  · intro engine terms
    rw [hred]

/-- Witness for C2: importing a book whose source file does not exist fails
at the placement step and leaves the catalog unchanged. -/
theorem ImportBook_placement_rollback_witness :
    (ImportBook envNoFail missSt missBook false).1 =
      Except.error (ImportErr.placement (FsErr.openFailed "missing.epub")) ∧
    (ImportBook envNoFail missSt missBook false).2.db = missSt.db ∧
    (∀ ids, GetBooksById (ImportBook envNoFail missSt missBook false).2.db ids =
      GetBooksById missSt.db ids) ∧
    (∀ engine terms, Search engine (ImportBook envNoFail missSt missBook false).2.db terms =
      Search engine missSt.db terms) :=
  ImportBook_placement_rollback envNoFail missSt missBook false
    (FsErr.openFailed "missing.epub") rfl (by decide)

/-- The probe loop of `GetUniqueName` stops at the first untaken candidate:
starting from probe `i` with enough fuel, if candidates `i, …, N-1` are all
taken and candidate `N` is not, the loop returns candidate `N`. -/
theorem getUniqueNameLoop_finds (taken : String → Bool) (f : String) :
    ∀ (fuel i N : Nat), i ≤ N → N < i + fuel →
    (∀ j, i ≤ j → j < N → taken (uniqueCandidate f j) = true) →
    taken (uniqueCandidate f N) = false →
    getUniqueNameLoop taken f i fuel = some (uniqueCandidate f N) := by
  intro fuel
  induction fuel with
  | zero =>
    intro i N h1 h2 _ _
    exact absurd h2 (by omega)
  | succ fuel ih =>
    intro i N hiN hlt hbusy hfree
    by_cases hi : i = N
    · subst hi
      simp [getUniqueNameLoop, hfree]
    · have htaken : taken (uniqueCandidate f i) = true :=
        hbusy i (Nat.le_refl i) (Nat.lt_of_le_of_ne hiN hi)
      simp only [getUniqueNameLoop, htaken, if_pos]
      exact ih (i + 1) N (by omega) (by omega)
        (fun j hj hjN => hbusy j (by omega) hjN) hfree

/-- C6: when `f` is already taken, `GetUniqueName` returns `f` with the
suffix `" (N)"` inserted before the extension, for the least `N ≥ 1` whose
candidate name is not taken, found by probing `N = 1, 2, 3, …`. -/
theorem GetUniqueName_probes (taken : String → Bool) (f : String) (N fuel : Nat)
    (h0 : taken f = true) (hN : 1 ≤ N)
    (hbusy : ∀ j, 1 ≤ j → j < N → taken (uniqueCandidate f j) = true)
    (hfree : taken (uniqueCandidate f N) = false)
    (hfuel : N < 1 + fuel) :
    GetUniqueName taken fuel f = some (uniqueCandidate f N) := by
  unfold GetUniqueName
  rw [if_pos (by simp [h0])]
  exact getUniqueNameLoop_finds taken f fuel 1 N hN hfuel hbusy hfree

/-- Witness for C6: with `foo.epub` taken the result is `foo (1).epub`, and
with both `foo.epub` and `foo (1).epub` taken the result is `foo (2).epub`. -/
theorem GetUniqueName_witness :
    GetUniqueName (fun s => s == "foo.epub") 3 "foo.epub" = some "foo (1).epub" ∧
    GetUniqueName (fun s => s == "foo.epub" || s == "foo (1).epub") 3 "foo.epub"
      = some "foo (2).epub" := by
  constructor
  · have h := GetUniqueName_probes (fun s => s == "foo.epub") "foo.epub" 1 3
      (by decide) (by decide)
      (by intro j h1 h2; omega)
      (by decide) (by decide)
    exact h.trans (by decide)
  · have h := GetUniqueName_probes (fun s => s == "foo.epub" || s == "foo (1).epub")
      "foo.epub" 2 3
      (by decide) (by decide)
      (by
        intro j h1 h2
        have hj : j = 1 := by omega
        subst hj
        decide)
      (by decide) (by decide)
    exact h.trans (by decide)

/-- C7: when the rename attempt fails, the fallback copy succeeds, and the
removal of the source afterwards fails, `moveFile` still returns success,
the destination holds the copied content, and the stale source file is left
in place. -/
theorem moveFile_remove_failure_nonfatal (env : Env) (fs : FS) (src dst : String)
    (d : FileData)
    (hr : env.renameFails = true) (hrm : env.removeFails = true)
    (hsrc : fs.lookup src = some d) :
    (moveFile env fs src dst).1 = none ∧
    (moveFile env fs src dst).2.lookup dst = some d ∧
    (moveFile env fs src dst).2.lookup src = some d := by
  have hred : moveFile env fs src dst =
      (none, { fs with files := setFile fs.files dst { content := d.content, mtime := d.mtime } }) := by
    unfold moveFile copyFile
    rw [hsrc]
    simp [hr, hrm]
  rw [hred]
  refine ⟨rfl, ?_, ?_⟩
  · show lookupFile (setFile fs.files dst { content := d.content, mtime := d.mtime }) dst
      = some d
    rw [lookupFile_setFile]
    simp
  · show lookupFile (setFile fs.files dst { content := d.content, mtime := d.mtime }) src
      = some d
    rw [lookupFile_setFile]
    split
    · simp
    · exact hsrc

/-- Witness for C7: a concrete move with failing rename and failing
post-copy remove still succeeds, copies the file, and leaves the source. -/
theorem moveFile_remove_failure_witness :
    (moveFile envRenameRemoveFail fsWithSrc "src.epub" "dst.epub").1 = none ∧
    (moveFile envRenameRemoveFail fsWithSrc "src.epub" "dst.epub").2.lookup "dst.epub"
      = some { content := "bytes", mtime := 42 } ∧
    (moveFile envRenameRemoveFail fsWithSrc "src.epub" "dst.epub").2.lookup "src.epub"
      = some { content := "bytes", mtime := 42 } :=
  moveFile_remove_failure_nonfatal envRenameRemoveFail fsWithSrc "src.epub" "dst.epub"
    { content := "bytes", mtime := 42 } rfl rfl (by decide)

/-- C8: after a successful `copyFile(src, dst)` the destination's
modification time equals the source's original modification time, even
though the destination's bytes are freshly written copies of the source's. -/
theorem copyFile_preserves_mtime (fs : FS) (src dst : String) (d : FileData)
    (hsrc : fs.lookup src = some d) :
    (copyFile fs src dst).1 = none ∧
    ∃ d2, (copyFile fs src dst).2.lookup dst = some d2 ∧
      d2.mtime = d.mtime ∧ d2.content = d.content := by
  have hred : copyFile fs src dst =
      (none, { fs with files := setFile fs.files dst { content := d.content, mtime := d.mtime } }) := by
    unfold copyFile
    rw [hsrc]
  rw [hred]
  refine ⟨rfl, { content := d.content, mtime := d.mtime }, ?_, rfl, rfl⟩
  show lookupFile (setFile fs.files dst { content := d.content, mtime := d.mtime }) dst
    = some { content := d.content, mtime := d.mtime }
  rw [lookupFile_setFile]
  simp

/-- Witness for C8: copying a concrete file reproduces the source's
modification time on the destination. -/
theorem copyFile_preserves_mtime_witness :
    (copyFile fsWithSrc "src.epub" "copy.epub").1 = none ∧
    ∃ d2, (copyFile fsWithSrc "src.epub" "copy.epub").2.lookup "copy.epub" = some d2 ∧
      d2.mtime = (42 : Int) ∧ d2.content = "bytes" :=
  copyFile_preserves_mtime fsWithSrc "src.epub" "copy.epub"
    { content := "bytes", mtime := 42 } (by decide)

/-- C9 counterexample: `ConvertToEpub` does not return the cached artifact
path on success — its only result is the error value.  Two books with
different content hashes have different cache destination paths, yet their
(successful) conversion results are identical, and equal to `none`. -/
theorem ConvertToEpub_no_path_cex :
    ConvertToEpub (fun _ => none) "lib/books.db" "root" cexBook1 =
      ConvertToEpub (fun _ => none) "lib/books.db" "root" cexBook2 ∧
    (convertCmd "lib/books.db" "root" cexBook1).args ≠
      (convertCmd "lib/books.db" "root" cexBook2).args ∧
    ConvertToEpub (fun _ => none) "lib/books.db" "root" cexBook1 = none := by
  refine ⟨by decide, by decide, by decide⟩

/-- C9 (amended): the conversion invokes the external converter
`ebook-convert` with exactly two positional arguments — the book's current
file resolved under the books root, then the destination named by the
content hash plus `.epub` inside a `cache` directory colocated with the
catalog file; any run failure of the subprocess is surfaced as the error,
and success returns no value (the cached artifact path is not returned). -/
theorem ConvertToEpub_contract (run : Cmd → Option CmdErr) (libFilename booksRoot : String)
    (b : Book) :
    (convertCmd libFilename booksRoot b).exe = "ebook-convert" ∧
    (convertCmd libFilename booksRoot b).args =
      [goPathJoin booksRoot b.CurrentFilename,
       goPathJoin (goPathJoin (goPathDir libFilename) "cache") (b.Hash ++ ".epub")] ∧
    (convertCmd libFilename booksRoot b).args.length = 2 ∧
    ConvertToEpub run libFilename booksRoot b = run (convertCmd libFilename booksRoot b) := by
  refine ⟨rfl, rfl, rfl, ?_⟩
  unfold ConvertToEpub
  cases run (convertCmd libFilename booksRoot b) with
  | none => rfl
  | some e => rfl

end Books
